import Mathlib

/-!
Verification of the L1-anchored state synchronization core of the
pathfinder StarkNet node (`crates/pathfinder/src/state.rs`).

The driver code is embedded shallowly: pure data for the entities, explicit
state passing for the database and the driver fields, `Except` for fallible
code. External collaborators that live outside the covered source (the
Pedersen hash, the Merkle trie internals, the storage tables, the L1
fetcher, the state-update retriever and the sequencer client) are modelled
from the specification and supplied through an `Env` record of functions,
so every definition stays executable.
-/

deriving instance DecidableEq for Except

namespace Pathfinder

/-- Field elements (`StarkHash` / `Felt`). Modelled as natural numbers; the
251-bit range constraint is enforced only where the source enforces it
(byte decoding). -/
abbrev Felt := Nat

/-- The Stark field modulus, `2^251 + 17 * 2^192 + 1`. -/
def starkPrime : Nat := 2 ^ 251 + 17 * 2 ^ 192 + 1

/-- Modelled from the spec: `StarkHash::from_be_bytes` of the pedersen
crate (missing from the covered source) — big-endian 32-byte decode with
range validation, failing when the value is not below the field modulus. -/
def from_be_bytes (bs : List Nat) : Option Felt :=
  if bs.length = 32 then
    let v := bs.foldl (fun a b => a * 256 + b) 0
    if v < starkPrime then some v else none
  else none

/-- L1 block provenance (`BlockOrigin`). -/
structure BlockOrigin where
  hash : Nat
  number : Nat
deriving DecidableEq, Repr

/-- L1 transaction provenance (`TransactionOrigin`). -/
structure TransactionOrigin where
  hash : Nat
  index : Nat
deriving DecidableEq, Repr

/-- Full L1 provenance of a log (`EthOrigin`). -/
structure EthOrigin where
  block : BlockOrigin
  transaction : TransactionOrigin
  log_index : Nat
deriving DecidableEq, Repr

/-- A compact state-update witness fetched from L1 (`StateUpdateLog`). -/
structure StateUpdateLog where
  origin : EthOrigin
  global_root : Felt
  block_number : Nat
deriving DecidableEq, Repr

/-- A newly deployed contract (`DeployedContract`). -/
structure DeployedContract where
  address : Felt
  hash : Felt
deriving DecidableEq, Repr

/-- One storage write of a contract update (`StorageUpdate`); the slot is
called `address` in the source. -/
structure StorageUpdate where
  address : Felt
  value : Felt
deriving DecidableEq, Repr

/-- The storage writes of one contract (`ContractUpdate`). -/
structure ContractUpdate where
  address : Felt
  storage_updates : List StorageUpdate
deriving DecidableEq, Repr

/-- The full payload referenced by a log (`StateUpdate`). -/
structure StateUpdate where
  deployed_contracts : List DeployedContract
  contract_updates : List ContractUpdate
deriving DecidableEq, Repr

/-- A row of the `contracts` table: address, code hash and opaque blobs. -/
structure ContractRecord where
  address : Felt
  hash : Felt
  bytecode : List Nat
  abi : String
  defn : String
deriving DecidableEq, Repr

/-- A row of the `contract_states` table: the contract state hash together
with its preimage (code hash, storage root). -/
structure ContractStateRecord where
  state_hash : Felt
  hash : Felt
  root : Felt
deriving DecidableEq, Repr

/-- A row of the `global_state` table, per the spec schema:
`(block_number PK, starknet_block_hash, global_root, eth_block_hash,
eth_block_number, eth_tx_hash, eth_tx_index, eth_log_index)`. -/
structure GlobalStateRecord where
  block_number : Nat
  block_hash : Felt
  global_root : Felt
  eth_block_hash : Nat
  eth_block_number : Nat
  eth_tx_hash : Nat
  eth_tx_index : Nat
  eth_log_index : Nat
deriving DecidableEq, Repr

/-- The relational database visible through the active transaction. -/
structure Database where
  contracts : List ContractRecord
  contract_states : List ContractStateRecord
  global_state : List GlobalStateRecord
deriving DecidableEq, Repr

/-- Modelled from the spec: `ContractsTable.get_hash(address) ->
Option CodeHash`. -/
def ContractsTable.get_hash (db : Database) (address : Felt) : Option Felt :=
  (db.contracts.find? (fun r => r.address == address)).map (fun r => r.hash)

/-- Modelled from the spec: `Contracts.insert` fails if the address
already exists (deployment is unique). -/
def ContractsTable.insert (db : Database) (address hash : Felt)
    (bytecode : List Nat) (abi defn : String) : Except String Database :=
  if db.contracts.any (fun r => r.address == address) then
    .error "Contract address already exists"
  else
    .ok { db with contracts := db.contracts ++ [⟨address, hash, bytecode, abi, defn⟩] }

/-- Modelled from the spec: `ContractsStatePreimage.get_root(csh) ->
Option StorageRoot`. -/
def ContractsStateTable.get_root (db : Database) (state_hash : Felt) : Option Felt :=
  (db.contract_states.find? (fun r => r.state_hash == state_hash)).map (fun r => r.root)

/-- Modelled from the spec: `ContractsStatePreimage.insert(csh, code_hash,
storage_root)`. -/
def ContractsStateTable.insert (db : Database) (state_hash hash root : Felt) : Database :=
  { db with contract_states := db.contract_states ++ [⟨state_hash, hash, root⟩] }

/-- Modelled from the spec: `GlobalStateHistory.latest()` returns the
record with maximum block number, or absent. -/
def GlobalStateTable.get_latest_state (db : Database) : Option GlobalStateRecord :=
  db.global_state.foldl
    (fun acc r =>
      match acc with
      | none => some r
      | some b => if b.block_number ≤ r.block_number then some r else some b)
    none

/-- Modelled from the spec: `GlobalStateTable::insert`. The driver's call
site passes exactly a block number, the sequencer block hash, the global
root, the L1 transaction hash and the L1 log index (spec section 4.5 lists
the stored value as `(StarknetBlockHash, GlobalRoot, L1TxHash,
L1LogIndex)`); the remaining provenance columns of the schema receive no
caller-supplied value and are stored as zero. -/
def GlobalStateTable.insert (db : Database) (block_number : Nat)
    (block_hash global_root : Felt) (eth_tx_hash : Nat) (eth_log_index : Nat) : Database :=
  { db with global_state :=
      db.global_state ++ [⟨block_number, block_hash, global_root, 0, 0, eth_tx_hash, 0, eth_log_index⟩] }

/-- An in-memory Merkle tree view: the loaded root plus the buffered
updates, in the order they were issued. Modelled from the spec (the trie
internals are outside the covered source). -/
structure Tree where
  root : Felt
  writes : List (Felt × Felt)
deriving DecidableEq, Repr

/-- A sequencer block reply: raw 32-byte state root and optional block
hash. -/
structure SequencerBlock where
  state_root : List Nat
  block_hash : Option (List Nat)
deriving DecidableEq, Repr

/-- A sequencer code reply: the bytecode as a list of 32-byte words. -/
structure CodeReply where
  bytecode : List (List Nat)
deriving DecidableEq, Repr

/-- Result of `StateUpdate::retrieve`: the payload, an `Other` error, or
any of the remaining error variants, which the driver treats as a reorg. -/
inductive RetrieveResult where
  | ok (su : StateUpdate)
  | otherErr (e : String)
  | reorgLike
deriving DecidableEq, Repr

/-- External collaborators, modelled from the spec: the Pedersen hash, the
trie lookup and materialization (content-addressed, hence pure in the
loaded root and the buffered writes), the state-update retriever, the
sequencer client and the database opener. -/
structure Env where
  pedersen : Felt → Felt → Felt
  treeGet : Felt → Felt → Felt
  treeApply : Felt → List (Felt × Felt) → Felt
  retrieve : StateUpdateLog → RetrieveResult
  blockByNumber : Nat → Except String SequencerBlock
  code : Felt → Except String CodeReply
  openDb : Except String Database

/-- Modelled from the spec: `load(db_tx, r)` creates a tree view at root
`r` with no buffered updates. -/
def Tree.load (root : Felt) : Tree := ⟨root, []⟩

/-- Modelled from the spec: `get(key)` returns the most recent buffered
value for the key, else descends from the loaded root (zero for missing
keys, supplied by the trie model `Env.treeGet`). -/
def Tree.get (env : Env) (t : Tree) (k : Felt) : Felt :=
  match t.writes.reverse.find? (fun p => p.1 == k) with
  | some p => p.2
  | none => env.treeGet t.root k

/-- Modelled from the spec: `set(key, value)` buffers an update. -/
def Tree.set (t : Tree) (k v : Felt) : Tree := ⟨t.root, t.writes ++ [(k, v)]⟩

/-- Modelled from the spec: `apply()` materializes the buffered updates
into new nodes and returns the new root (`Env.treeApply`). -/
def Tree.apply (env : Env) (t : Tree) : Felt := env.treeApply t.root t.writes

/-- `RESERVED` padding constant of the contract state hash. -/
def RESERVED : Felt := 0

/-- `CONTRACT_VERSION` padding constant of the contract state hash. -/
def CONTRACT_VERSION : Felt := 0

/-- `calculate_contract_state_hash`: the contract state hash is
`H(H(H(hash, root), RESERVED), CONTRACT_VERSION)`. -/
def calculate_contract_state_hash (pedersen : Felt → Felt → Felt)
    (hash root : Felt) : Felt :=
  let h1 := pedersen hash root
  let h2 := pedersen h1 RESERVED
  pedersen h2 CONTRACT_VERSION

/-- Errors returned by `update`: a detected reorg, or any other error. -/
inductive UpdateError where
  | Reorg
  | Other (e : String)
deriving DecidableEq, Repr

/-- Observable effect events, used to state ordering properties: a
contract insertion into the `contracts` table, or one storage write
applied to a contract tree. -/
inductive Event where
  | deployed (address : Felt)
  | wrote (contract slot value : Felt)
deriving DecidableEq, Repr

/-- The driver's own fields that the covered code reads or writes: the
in-memory mirror of the most recently committed global root, and the
fetcher cursor (`StateRootFetcher::new` is modelled as the optional
`StateUpdateLog` it is constructed from; `none` is the genesis cursor). -/
structure DriverState where
  global_root : Felt
  root_fetcher : Option StateUpdateLog
deriving DecidableEq, Repr

/-- `deploy_contract`: downloads the code from the sequencer, flattens the
bytecode words into one buffer, stores placeholder ABI and definition
blobs, and inserts the row into the `contracts` table. -/
def deploy_contract (env : Env) (contract : DeployedContract)
    (db : Database) : Except String Database :=
  match env.code contract.address with
  | .error e => .error e
  | .ok code =>
    let byte_code := code.bytecode.flatten
    ContractsTable.insert db contract.address contract.hash byte_code "todo" "does not exist"

/-- The deployment loop of `update`: deploys each contract in order,
recording a `deployed` event per successful insertion; stops at the first
failure, returning the partially updated database. -/
def runDeploys (env : Env) :
    List DeployedContract → Database → List Event →
    (Except String Unit) × Database × List Event
  | [], db, tr => (.ok (), db, tr)
  | c :: rest, db, tr =>
    match deploy_contract env c db with
    | .error e => (.error e, db, tr)
    | .ok db1 => runDeploys env rest db1 (tr ++ [.deployed c.address])

/-- The storage-write loop of `update_contract_state`: buffers each
`(slot, value)` write into the contract tree in payload order, recording a
`wrote` event per write. -/
def applyStorageUpdates (contract : Felt) :
    List StorageUpdate → Tree → List Event → Tree × List Event
  | [], t, tr => (t, tr)
  | s :: rest, t, tr =>
    applyStorageUpdates contract rest (Tree.set t s.address s.value)
      (tr ++ [.wrote contract s.address s.value])

/-- `update_contract_state`: reads the old contract state hash from the
global tree, resolves the old storage root through the preimage table
(zero when absent), loads the contract tree there, applies the storage
updates, materializes the new storage root, fails when the `contracts`
table has no code hash for the address, and otherwise computes the new
contract state hash, persists its preimage and returns it. -/
def update_contract_state (env : Env) (u : ContractUpdate)
    (global_tree : Tree) (db : Database) (tr : List Event) :
    (Except String Felt) × Database × List Event :=
  let contract_state_hash := Tree.get env global_tree u.address
  let contract_root := (ContractsStateTable.get_root db contract_state_hash).getD 0
  let contract_tree := Tree.load contract_root
  let stepped := applyStorageUpdates u.address u.storage_updates contract_tree tr
  let new_contract_root := Tree.apply env stepped.1
  match ContractsTable.get_hash db u.address with
  | none => (.error "Contract hash is missing from contracts table", db, stepped.2)
  | some contract_hash =>
    let csh := calculate_contract_state_hash env.pedersen contract_hash new_contract_root
    (.ok csh, ContractsStateTable.insert db csh contract_hash new_contract_root, stepped.2)

/-- The contract-update loop of `update`: for each contract update, runs
`update_contract_state` and buffers the returned contract state hash into
the global tree at the contract's address. -/
def runContractUpdates (env : Env) :
    List ContractUpdate → Tree → Database → List Event →
    (Except String Tree) × Database × List Event
  | [], gt, db, tr => (.ok gt, db, tr)
  | u :: rest, gt, db, tr =>
    match update_contract_state env u gt db tr with
    | (.error e, db1, tr1) => (.error e, db1, tr1)
    | (.ok csh, db1, tr1) =>
      runContractUpdates env rest (Tree.set gt u.address csh) db1 tr1

/-- `update`: applies one `StateUpdateLog` to the state inside the given
transaction view. Retrieves the payload (non-`Other` retrieval errors are
promoted to a reorg), deploys the new contracts, applies every contract
update to the global tree loaded at the driver's current root,
materializes the new global root, cross-checks it against the L1 witness,
fetches the block from the sequencer and cross-checks the sequencer's
state root and block hash, inserts the global-state history row, and only
then assigns the driver's `global_root`. Returns the result together with
the driver state, the transaction view and the event log, all as of the
return point. -/
def update (env : Env) (st : DriverState) (db : Database)
    (update_log : StateUpdateLog) :
    (Except UpdateError Unit) × DriverState × Database × List Event :=
  match env.retrieve update_log with
  | .otherErr e =>
    (.error (.Other ("Fetching state update failed. " ++ e)), st, db, [])
  | .reorgLike => (.error .Reorg, st, db, [])
  | .ok state_update =>
    match runDeploys env state_update.deployed_contracts db [] with
    | (.error e, db1, tr1) => (.error (.Other e), st, db1, tr1)
    | (.ok _, db1, tr1) =>
      let global_tree := Tree.load st.global_root
      match runContractUpdates env state_update.contract_updates global_tree db1 tr1 with
      | (.error e, db2, tr2) => (.error (.Other e), st, db2, tr2)
      | (.ok gt2, db2, tr2) =>
        let new_global_root := Tree.apply env gt2
        if new_global_root ≠ update_log.global_root then
          (.error (.Other "New global state root did not match L1."), st, db2, tr2)
        else
          match env.blockByNumber update_log.block_number with
          | .error e => (.error (.Other e), st, db2, tr2)
          | .ok block =>
            match from_be_bytes block.state_root with
            | none => (.error (.Other "Parsing sequencer state root"), st, db2, tr2)
            | some block_root =>
              if block_root ≠ update_log.global_root then
                (.error (.Other "Sequencer state root did not match L1."), st, db2, tr2)
              else
                match block.block_hash with
                | none => (.error (.Other "Sequencer block hash missing"), st, db2, tr2)
                | some bh_bytes =>
                  match from_be_bytes bh_bytes with
                  | none => (.error (.Other "Parsing sequencer block hash"), st, db2, tr2)
                  | some block_hash =>
                    let db3 := GlobalStateTable.insert db2 update_log.block_number
                      block_hash new_global_root update_log.origin.transaction.hash
                      update_log.origin.log_index
                    (.ok (), { st with global_root := new_global_root }, db3, tr2)

/-- One reply of the L1 fetcher: a batch of logs, a reorg signal, or a
transient error (`FetchError::Other`). A `sync` run is driven by a finite
script of such replies. -/
inductive FetchResult where
  | logs (ls : List StateUpdateLog)
  | reorg
  | otherErr (e : String)
deriving DecidableEq, Repr

/-- The observable outcome of a `sync` run: successful termination on an
empty batch, a surfaced fetch or update error, one of the two `todo`
panics the source raises on a reorg signal, or exhaustion of the finite
fetch script (the source loop would keep iterating). -/
inductive SyncOutcome where
  | ok
  | fetchFatal (e : String)
  | updateFatal (e : String)
  | todoFetchReorg
  | todoUpdateReorg
  | noMoreScript
deriving DecidableEq, Repr

/-- The per-batch loop of `sync`: for each log in order, a fresh
transaction view is opened on the committed database, `update` runs in it,
and the view is committed exactly when `update` succeeds. On a failure the
in-flight view is dropped: the returned database is the committed one,
which still reflects every earlier log of the batch. -/
def processBatch (env : Env) :
    DriverState → Database → List StateUpdateLog →
    (DriverState × Database) ⊕ (SyncOutcome × DriverState × Database)
  | st, db, [] => .inl (st, db)
  | st, db, l :: rest =>
    match update env st db l with
    | (.ok _, st1, db1, _) => processBatch env st1 db1 rest
    | (.error .Reorg, st1, _, _) => .inr (.todoUpdateReorg, st1, db)
    | (.error (.Other e), st1, _, _) => .inr (.updateFatal e, st1, db)

/-- The fetch loop of `sync`, driven by a finite script of fetcher
replies: an empty batch returns `ok`; a non-empty batch is processed log
by log; a fetcher reorg hits the source's `todo` panic; a fetcher error is
surfaced. -/
def syncRun (env : Env) :
    DriverState → Database → List FetchResult →
    SyncOutcome × DriverState × Database
  | st, db, [] => (.noMoreScript, st, db)
  | st, db, .logs ls :: rest =>
    if ls.isEmpty then (.ok, st, db)
    else
      match processBatch env st db ls with
      | .inl (st1, db1) => syncRun env st1 db1 rest
      | .inr stop => stop
  | st, db, .reorg :: _ => (.todoFetchReorg, st, db)
  | st, db, .otherErr e :: _ => (.fetchFatal e, st, db)

/-- `sync`: connects to the database and runs the fetch loop. -/
def sync (env : Env) (st : DriverState) (script : List FetchResult) :
    Except String (SyncOutcome × DriverState × Database) :=
  match env.openDb with
  | .error e => .error ("Connecting to database. " ++ e)
  | .ok db => .ok (syncRun env st db script)

/-- The reconstruction of a `StateUpdateLog` from the latest persisted
global-state record, as performed by `new`. -/
def recordToLog (r : GlobalStateRecord) : StateUpdateLog :=
  { origin :=
      { block := { hash := r.eth_block_hash, number := r.eth_block_number }
        transaction := { hash := r.eth_tx_hash, index := r.eth_tx_index }
        log_index := r.eth_log_index }
    global_root := r.global_root
    block_number := r.block_number }

/-- `new`: opens the database (failing when that fails), reads the latest
global-state record in a transaction that is rolled back (the read leaves
the database untouched, so the returned driver carries no database),
mirrors its global root (zero when absent) and initializes the fetcher
cursor from the reconstructed log (genesis when absent). -/
def new (env : Env) : Except String DriverState :=
  match env.openDb with
  | .error e => .error ("Failed to open database. " ++ e)
  | .ok db =>
    let latest_state := GlobalStateTable.get_latest_state db
    let global_root := ((latest_state.map (fun r => r.global_root)).getD 0 : Felt)
    let latest_log := latest_state.map recordToLog
    .ok { global_root := global_root, root_fetcher := latest_log }

/-- The contract-state-hash preimage invariant: every row of the
`contract_states` table has its key equal to the contract state hash of
its stored preimage. -/
def PreimageInv (pedersen : Felt → Felt → Felt) (db : Database) : Prop :=
  ∀ r ∈ db.contract_states,
    r.state_hash = calculate_contract_state_hash pedersen r.hash r.root

/-- The new storage root a `ContractUpdate` produces: the trie
materialization of the payload writes over the storage root resolved from
the preimage table (zero when absent) of the global tree's value at the
contract's address. -/
def contract_storage_root_after (env : Env) (u : ContractUpdate) (gt : Tree)
    (db : Database) : Felt :=
  env.treeApply ((ContractsStateTable.get_root db (Tree.get env gt u.address)).getD 0)
    (u.storage_updates.map (fun s => (s.address, s.value)))

/-- The event suffix of one contract update: its storage writes in payload
order. -/
def wroteEvents (u : ContractUpdate) : List Event :=
  u.storage_updates.map (fun s => Event.wrote u.address s.address s.value)

/-- A 32-byte big-endian buffer with the given final two bytes. -/
def beBytes2 (hi lo : Nat) : List Nat := List.replicate 30 0 ++ [hi, lo]

/-- Concrete payload: deploy contract 4 with code hash 5, then write slot
7 of contract 4 to 42. -/
def su0 : StateUpdate := ⟨[⟨4, 5⟩], [⟨4, [⟨7, 42⟩]⟩]⟩

/-- The empty database. -/
def db0 : Database := ⟨[], [], []⟩

/-- A driver positioned at global root 9 with a genesis cursor. -/
def st0 : DriverState := ⟨9, none⟩

/-- The first contract update of the concrete payload. -/
def cu0 : ContractUpdate := ⟨4, [⟨7, 42⟩]⟩

/-- A log whose root 648 matches what the concrete environment computes. -/
def log0 : StateUpdateLog := ⟨⟨⟨5, 6⟩, ⟨11, 7⟩, 13⟩, 648, 1⟩

/-- A concrete environment on which every step of `update` succeeds for
`log0`: the sequencer reports state root 648 (bytes `02 88`) and block
hash 3. -/
def env0 : Env where
  pedersen := fun a b => 2 * a + 3 * b + 1
  treeGet := fun _ _ => 0
  treeApply := fun r ws => ws.foldl (fun a p => a + p.1 + p.2) r
  retrieve := fun _ => .ok su0
  blockByNumber := fun _ => .ok ⟨beBytes2 2 136, some (beBytes2 0 3)⟩
  code := fun _ => .ok ⟨[[1, 2]]⟩
  openDb := .ok db0

/-- The database after the deployment phase of the concrete run. -/
def db0d : Database := ⟨[⟨4, 5, [1, 2], "todo", "does not exist"⟩], [], []⟩

/-- The event log after the deployment phase of the concrete run. -/
def tr0d : List Event := [.deployed 4]

/-- The global tree after the contract-update phase of the concrete run. -/
def gt0 : Tree := ⟨9, [(4, 635)]⟩

/-- The database after the contract-update phase of the concrete run. -/
def db0c : Database := ⟨[⟨4, 5, [1, 2], "todo", "does not exist"⟩], [⟨635, 5, 49⟩], []⟩

/-- The full event log of the concrete run. -/
def tr0F : List Event := [.deployed 4, .wrote 4 7 42]

/-- The final database of the successful concrete run. -/
def db0F : Database :=
  ⟨[⟨4, 5, [1, 2], "todo", "does not exist"⟩], [⟨635, 5, 49⟩],
   [⟨1, 3, 648, 0, 0, 11, 0, 13⟩]⟩

/-- Like `env0` but the sequencer reports state root 649 instead of 648. -/
def env2 : Env :=
  { env0 with blockByNumber := fun _ => .ok ⟨beBytes2 2 137, some (beBytes2 0 3)⟩ }

/-- Like `env0` but state-update retrieval reports a reorg-like error. -/
def envR : Env := { env0 with retrieve := fun _ => .reorgLike }

/-- Like `log0` but claiming global root 999, which the concrete
environment does not reproduce. -/
def log1 : StateUpdateLog := ⟨⟨⟨5, 6⟩, ⟨11, 7⟩, 13⟩, 999, 1⟩

/-- A persisted global-state record with full provenance columns. -/
def rec0 : GlobalStateRecord := ⟨1, 3, 648, 21, 22, 11, 23, 13⟩

/-- A database holding exactly the record `rec0`. -/
def dbRec : Database := ⟨[], [], [rec0]⟩

/-- Like `env0` but opening the database yields `dbRec`. -/
def envRec : Env := { env0 with openDb := .ok dbRec }

/-- Inversion for successful runs of `update`: every intermediate step
must have succeeded, both cross-checks must have passed, the history row
was inserted and the driver root was assigned. -/
lemma update_ok_inv (env : Env) (st : DriverState) (db : Database)
    (log : StateUpdateLog) (st' : DriverState) (db' : Database) (tr : List Event)
    (h : update env st db log = (.ok (), st', db', tr)) :
    ∃ su db1 tr1 gt2 db2 block bh_bytes block_hash,
      env.retrieve log = .ok su ∧
      runDeploys env su.deployed_contracts db [] = (.ok (), db1, tr1) ∧
      runContractUpdates env su.contract_updates (Tree.load st.global_root) db1 tr1
        = (.ok gt2, db2, tr) ∧
      Tree.apply env gt2 = log.global_root ∧
      env.blockByNumber log.block_number = .ok block ∧
      from_be_bytes block.state_root = some log.global_root ∧
      block.block_hash = some bh_bytes ∧
      from_be_bytes bh_bytes = some block_hash ∧
      st' = { st with global_root := log.global_root } ∧
      db' = GlobalStateTable.insert db2 log.block_number block_hash log.global_root
              log.origin.transaction.hash log.origin.log_index := by
  unfold update at h
  rcases hR : env.retrieve log with su | e | _ <;> rw [hR] at h
  case otherErr => simp at h
  case reorgLike => simp at h
  case ok =>
  simp only [] at h
  rcases hD : runDeploys env su.deployed_contracts db [] with ⟨resD, db1, tr1⟩
  rw [hD] at h
  rcases resD with e | u
  · simp at h
  · cases u
    simp only [] at h
    rcases hC : runContractUpdates env su.contract_updates (Tree.load st.global_root) db1 tr1
      with ⟨resC, db2, tr2⟩
    rw [hC] at h
    rcases resC with e | gt2
    · simp at h
    · simp only [] at h
      by_cases hroot : Tree.apply env gt2 = log.global_root
      · rw [if_neg (not_not_intro hroot)] at h
        rcases hB : env.blockByNumber log.block_number with e | block <;> rw [hB] at h
        · simp at h
        · simp only [] at h
          rcases hsr : from_be_bytes block.state_root with _ | br <;> rw [hsr] at h
          · simp at h
          · simp only [] at h
            by_cases hbr : br = log.global_root
            · rw [if_neg (not_not_intro hbr)] at h
              rcases hbh : block.block_hash with _ | bhb <;> rw [hbh] at h
              · simp at h
              · simp only [] at h
                rcases hph : from_be_bytes bhb with _ | bh <;> rw [hph] at h
                · simp at h
                · simp only [Prod.mk.injEq] at h
                  obtain ⟨-, hst, hdb, htr⟩ := h
                  subst hbr
                  refine ⟨su, db1, tr1, gt2, db2, block, bhb, bh, ?_, ?_, ?_, hroot, ?_,
                    ?_, ?_, ?_, ?_, ?_⟩
                  all_goals try exact hD
                  all_goals try exact hsr
                  all_goals try exact hbh
                  all_goals try exact hph
                  all_goals try rfl
                  · rw [hC, htr]
                  · rw [← hst, hroot]
                  · rw [← hdb, hroot]
            · rw [if_pos hbr] at h
              simp at h
      · rw [if_pos hroot] at h
        simp at h

/-- Inversion for the driver state after `update`: either the driver
fields are untouched, or the run succeeded and exactly the global root
was assigned. -/
lemma update_st_inv (env : Env) (st : DriverState) (db : Database)
    (log : StateUpdateLog) :
    (update env st db log).2.1 = st ∨
      ((update env st db log).1 = .ok () ∧
        (update env st db log).2.1 = { st with global_root := log.global_root }) := by
  unfold update
  rcases hR : env.retrieve log with su | e | _
  case otherErr => left; rfl
  case reorgLike => left; rfl
  case ok =>
  simp only []
  rcases hD : runDeploys env su.deployed_contracts db [] with ⟨resD, db1, tr1⟩
  rcases resD with e | u
  · left; rfl
  · cases u
    simp only []
    rcases hC : runContractUpdates env su.contract_updates (Tree.load st.global_root) db1 tr1
      with ⟨resC, db2, tr2⟩
    rcases resC with e | gt2
    · left; rfl
    · simp only []
      by_cases hroot : Tree.apply env gt2 = log.global_root
      · rw [if_neg (not_not_intro hroot)]
        rcases hB : env.blockByNumber log.block_number with e | block
        · left; rfl
        · simp only []
          rcases hsr : from_be_bytes block.state_root with _ | br
          · left; rfl
          · simp only []
            by_cases hbr : br = log.global_root
            · rw [if_neg (not_not_intro hbr)]
              rcases hbh : block.block_hash with _ | bhb
              · left; rfl
              · simp only []
                rcases hph : from_be_bytes bhb with _ | bh
                · left; rfl
                · right
                  exact ⟨rfl, by rw [hroot]⟩
            · rw [if_pos hbr]
              left; rfl
      · rw [if_pos hroot]
        left; rfl

/-- C1: `update` fails when the root materialized from the global tree
after all contract updates differs from the log's root, and on success the
driver's `global_root` equals the log's root. -/
theorem update_l1_crosscheck (env : Env) (st : DriverState) (db : Database)
    (log : StateUpdateLog) :
    (∀ st' db' tr, update env st db log = (.ok (), st', db', tr) →
      st'.global_root = log.global_root) ∧
    (∀ su db1 tr1 gt2 db2 tr2,
      env.retrieve log = .ok su →
      runDeploys env su.deployed_contracts db [] = (.ok (), db1, tr1) →
      runContractUpdates env su.contract_updates (Tree.load st.global_root) db1 tr1
        = (.ok gt2, db2, tr2) →
      Tree.apply env gt2 ≠ log.global_root →
      ∃ e, (update env st db log).1 = .error (.Other e)) := by
  constructor
  · intro st' db' tr h
    obtain ⟨_, _, _, _, _, _, _, _, _, _, _, _, _, _, _, _, hst, -⟩ :=
      update_ok_inv env st db log st' db' tr h
    rw [hst]
  · intro su db1 tr1 gt2 db2 tr2 h1 h2 h3 h4
    exact ⟨"New global state root did not match L1.",
      by simp [update, h1, h2, h3, h4]⟩

/-- C1 witness: the concrete successful run ends at the log's root, and
against a log claiming root 999 the same environment fails with a
non-reorg error. -/
theorem update_l1_crosscheck_witness :
    (update env0 st0 db0 log0 = (.ok (), ⟨648, none⟩, db0F, tr0F) ∧
      (⟨648, none⟩ : DriverState).global_root = log0.global_root) ∧
    (∃ e, (update env0 st0 db0 log1).1 = .error (.Other e)) :=
  ⟨⟨by decide, (update_l1_crosscheck env0 st0 db0 log0).1 ⟨648, none⟩ db0F tr0F (by decide)⟩,
    (update_l1_crosscheck env0 st0 db0 log1).2 su0 db0d tr0d gt0 db0c tr0F
      (by decide) (by decide) (by decide) (by decide)⟩

/-- C2: once the computed root matches the L1 witness, a sequencer state
root differing from the log's root, or a missing sequencer block hash,
makes `update` fail with a non-reorg (`Other`) error. -/
theorem update_sequencer_crosscheck (env : Env) (st : DriverState)
    (db : Database) (log : StateUpdateLog) :
    ∀ su db1 tr1 gt2 db2 tr2 block,
      env.retrieve log = .ok su →
      runDeploys env su.deployed_contracts db [] = (.ok (), db1, tr1) →
      runContractUpdates env su.contract_updates (Tree.load st.global_root) db1 tr1
        = (.ok gt2, db2, tr2) →
      Tree.apply env gt2 = log.global_root →
      env.blockByNumber log.block_number = .ok block →
      ((∃ r, from_be_bytes block.state_root = some r ∧ r ≠ log.global_root) ∨
       (from_be_bytes block.state_root = some log.global_root ∧ block.block_hash = none)) →
      ∃ e, (update env st db log).1 = .error (UpdateError.Other e) := by
  intro su db1 tr1 gt2 db2 tr2 block h1 h2 h3 h4 h5 h6
  rcases h6 with ⟨r, hr, hne⟩ | ⟨hroot, hmiss⟩
  · exact ⟨"Sequencer state root did not match L1.",
      by simp [update, h1, h2, h3, h4, h5, hr, hne]⟩
  · exact ⟨"Sequencer block hash missing",
      by simp [update, h1, h2, h3, h4, h5, hroot, hmiss]⟩

/-- C2 witness: with the sequencer reporting root 649 against the log's
648, the concrete run fails with a non-reorg error. -/
theorem update_sequencer_crosscheck_witness :
    env2.retrieve log0 = .ok su0 ∧
    (∃ e, (update env2 st0 db0 log0).1 = .error (UpdateError.Other e)) :=
  ⟨by decide,
    update_sequencer_crosscheck env2 st0 db0 log0 su0 db0d tr0d gt0 db0c tr0F
      ⟨beBytes2 2 137, some (beBytes2 0 3)⟩
      (by decide) (by decide) (by decide) (by decide) (by decide)
      (.inl ⟨649, by decide, by decide⟩)⟩

/-- The storage-write loop buffers exactly the payload writes, in payload
order, and records the matching events. -/
lemma applyStorageUpdates_eq (contract : Felt) :
    ∀ (us : List StorageUpdate) (t : Tree) (tr : List Event),
      applyStorageUpdates contract us t tr =
        (⟨t.root, t.writes ++ us.map (fun s => (s.address, s.value))⟩,
         tr ++ us.map (fun s => Event.wrote contract s.address s.value)) := by
  intro us
  induction us with
  | nil => intro t tr; simp [applyStorageUpdates]
  | cons s rest ih =>
    intro t tr
    simp [applyStorageUpdates, Tree.set, ih]

/-- Unfolding of `update_contract_state` in terms of the lookups it
performs: it fails exactly when the code hash is absent, and otherwise
returns the state hash of the new preimage and inserts that preimage. -/
lemma update_contract_state_eq (env : Env) (u : ContractUpdate) (gt : Tree)
    (db : Database) (tr : List Event) :
    update_contract_state env u gt db tr =
      match ContractsTable.get_hash db u.address with
      | none => (.error "Contract hash is missing from contracts table", db, tr ++ wroteEvents u)
      | some ch =>
        (.ok (calculate_contract_state_hash env.pedersen ch (contract_storage_root_after env u gt db)),
         ContractsStateTable.insert db
           (calculate_contract_state_hash env.pedersen ch (contract_storage_root_after env u gt db))
           ch (contract_storage_root_after env u gt db),
         tr ++ wroteEvents u) := by
  unfold update_contract_state
  simp only [applyStorageUpdates_eq]
  rcases ContractsTable.get_hash db u.address with _ | ch <;>
    simp [Tree.apply, Tree.load, contract_storage_root_after, wroteEvents]

/-- Transfer of the preimage invariant along equal `contract_states`. -/
lemma preimageInv_congr (p : Felt → Felt → Felt) (db1 db2 : Database)
    (h : db1.contract_states = db2.contract_states) (hi : PreimageInv p db2) :
    PreimageInv p db1 := by
  intro r hr
  exact hi r (h ▸ hr)

/-- `update_contract_state` preserves the preimage invariant: the only row
it inserts hashes to its key by construction. -/
lemma update_contract_state_preimage (env : Env) (u : ContractUpdate) (gt : Tree)
    (db : Database) (tr : List Event) (res : Except String Felt) (db1 : Database)
    (tr1 : List Event) (h : update_contract_state env u gt db tr = (res, db1, tr1))
    (hi : PreimageInv env.pedersen db) : PreimageInv env.pedersen db1 := by
  rw [update_contract_state_eq] at h
  rcases hg : ContractsTable.get_hash db u.address with _ | ch <;> rw [hg] at h <;>
    simp only [] at h <;> injection h with h1 h2 <;> injection h2 with hdb htr <;>
    rw [← hdb]
  · exact hi
  · intro r hr
    simp only [ContractsStateTable.insert] at hr
    rcases List.mem_append.1 hr with hr2 | hr2
    · exact hi r hr2
    · rw [List.mem_singleton.1 hr2]

/-- The contract-update loop preserves the preimage invariant. -/
lemma runContractUpdates_preimage (env : Env) :
    ∀ (us : List ContractUpdate) (gt : Tree) (db : Database) (tr : List Event)
      (res : Except String Tree) (db2 : Database) (tr2 : List Event),
      runContractUpdates env us gt db tr = (res, db2, tr2) →
      PreimageInv env.pedersen db → PreimageInv env.pedersen db2 := by
  intro us
  induction us with
  | nil =>
    intro gt db tr res db2 tr2 h hi
    simp only [runContractUpdates] at h
    injection h with h1 h2
    injection h2 with hdb htr
    rw [← hdb]
    exact hi
  | cons u rest ih =>
    intro gt db tr res db2 tr2 h hi
    unfold runContractUpdates at h
    rcases hu : update_contract_state env u gt db tr with ⟨resU, dbU, trU⟩
    rw [hu] at h
    rcases resU with e | csh <;> simp only [] at h
    · injection h with h1 h2
      injection h2 with hdb htr
      rw [← hdb]
      exact update_contract_state_preimage env u gt db tr _ _ _ hu hi
    · exact ih _ _ _ _ _ _ h (update_contract_state_preimage env u gt db tr _ _ _ hu hi)

/-- Deployment does not touch the `contract_states` table. -/
lemma deploy_contract_contract_states (env : Env) (c : DeployedContract)
    (db db1 : Database) (h : deploy_contract env c db = .ok db1) :
    db1.contract_states = db.contract_states := by
  unfold deploy_contract at h
  rcases hc : env.code c.address with e | code <;> rw [hc] at h <;> simp only [] at h
  · exact Except.noConfusion h
  · unfold ContractsTable.insert at h
    split at h
    · exact Except.noConfusion h
    · injection h with h1
      rw [← h1]

/-- The deployment loop does not touch the `contract_states` table. -/
lemma runDeploys_contract_states (env : Env) :
    ∀ (cs : List DeployedContract) (db : Database) (tr : List Event)
      (res : Except String Unit) (db1 : Database) (tr1 : List Event),
      runDeploys env cs db tr = (res, db1, tr1) →
      db1.contract_states = db.contract_states := by
  intro cs
  induction cs with
  | nil =>
    intro db tr res db1 tr1 h
    simp only [runDeploys] at h
    injection h with h1 h2
    injection h2 with hdb htr
    rw [← hdb]
  | cons c rest ih =>
    intro db tr res db1 tr1 h
    unfold runDeploys at h
    rcases hc : deploy_contract env c db with e | dbx <;> rw [hc] at h <;> simp only [] at h
    · injection h with h1 h2
      injection h2 with hdb htr
      rw [← hdb]
    · rw [ih _ _ _ _ _ h, deploy_contract_contract_states env c db dbx hc]

/-- The full `update` preserves the preimage invariant, whatever its
outcome: the only writes to the preimage table go through
`update_contract_state`. -/
lemma update_preimage (env : Env) (st : DriverState) (db : Database)
    (log : StateUpdateLog) (hi : PreimageInv env.pedersen db) :
    PreimageInv env.pedersen (update env st db log).2.2.1 := by
  unfold update
  rcases hR : env.retrieve log with su | e | _
  case otherErr => exact hi
  case reorgLike => exact hi
  case ok =>
  simp only []
  rcases hD : runDeploys env su.deployed_contracts db [] with ⟨resD, db1, tr1⟩
  have hi1 : PreimageInv env.pedersen db1 :=
    preimageInv_congr _ _ _ (runDeploys_contract_states env _ _ _ _ _ _ hD) hi
  rcases resD with e | u
  · exact hi1
  · cases u
    simp only []
    rcases hC : runContractUpdates env su.contract_updates (Tree.load st.global_root) db1 tr1
      with ⟨resC, db2, tr2⟩
    have hi2 : PreimageInv env.pedersen db2 :=
      runContractUpdates_preimage env _ _ _ _ _ _ _ hC hi1
    rcases resC with e | gt2
    · exact hi2
    · simp only []
      by_cases hroot : Tree.apply env gt2 = log.global_root
      · rw [if_neg (not_not_intro hroot)]
        rcases hB : env.blockByNumber log.block_number with e | block
        · exact hi2
        · simp only []
          rcases hsr : from_be_bytes block.state_root with _ | br
          · exact hi2
          · simp only []
            by_cases hbr : br = log.global_root
            · rw [if_neg (not_not_intro hbr)]
              rcases hbh : block.block_hash with _ | bhb
              · exact hi2
              · simp only []
                rcases hph : from_be_bytes bhb with _ | bh
                · exact hi2
                · exact preimageInv_congr _ _ _ rfl hi2
            · rw [if_pos hbr]
              exact hi2
      · rw [if_pos hroot]
        exact hi2

/-- C3: the contract state hash is the triple Pedersen chain
`H(H(H(code_hash, storage_root), 0), 0)`, and this construction keeps the
preimage-table invariant - every stored key hashes from its stored
preimage - across any run of `update`. -/
theorem contract_state_hash_preimage (env : Env) (st : DriverState)
    (db : Database) (log : StateUpdateLog) (ch root : Felt) :
    calculate_contract_state_hash env.pedersen ch root
      = env.pedersen (env.pedersen (env.pedersen ch root) 0) 0 ∧
    (PreimageInv env.pedersen db →
      PreimageInv env.pedersen (update env st db log).2.2.1) :=
  ⟨rfl, update_preimage env st db log⟩

/-- C3 witness: the empty preimage table satisfies the invariant, and it
still holds after the concrete successful run. -/
theorem contract_state_hash_preimage_witness :
    PreimageInv env0.pedersen db0 ∧
    PreimageInv env0.pedersen (update env0 st0 db0 log0).2.2.1 :=
  ⟨by simp [PreimageInv, db0],
    (contract_state_hash_preimage env0 st0 db0 log0 0 0).2 (by simp [PreimageInv, db0])⟩

/-- C7: `update_contract_state` resolves the old storage root through the
global tree and the preimage table (zero when absent), applies the payload
writes to the contract tree loaded there, fails exactly when the
`contracts` table has no code hash for the address, and otherwise inserts
the new preimage under the new contract state hash and returns that
hash. -/
theorem update_contract_state_spec (env : Env) (u : ContractUpdate) (gt : Tree)
    (db : Database) (tr : List Event) :
    (ContractsTable.get_hash db u.address = none →
      update_contract_state env u gt db tr =
        (.error "Contract hash is missing from contracts table", db,
         tr ++ wroteEvents u)) ∧
    (∀ ch, ContractsTable.get_hash db u.address = some ch →
      update_contract_state env u gt db tr =
        (.ok (calculate_contract_state_hash env.pedersen ch
            (contract_storage_root_after env u gt db)),
         ContractsStateTable.insert db
           (calculate_contract_state_hash env.pedersen ch
             (contract_storage_root_after env u gt db))
           ch (contract_storage_root_after env u gt db),
         tr ++ wroteEvents u)) := by
  constructor
  · intro h
    rw [update_contract_state_eq, h]
  · intro ch h
    rw [update_contract_state_eq, h]

/-- C7 witness: the concrete contract update, run against the database
that holds the deployed contract, produces the computed state hash and
preimage row. -/
theorem update_contract_state_spec_witness :
    ContractsTable.get_hash db0d cu0.address = some 5 ∧
    update_contract_state env0 cu0 (Tree.load 9) db0d [Event.deployed 4] =
      (.ok (calculate_contract_state_hash env0.pedersen 5
          (contract_storage_root_after env0 cu0 (Tree.load 9) db0d)),
       ContractsStateTable.insert db0d
         (calculate_contract_state_hash env0.pedersen 5
           (contract_storage_root_after env0 cu0 (Tree.load 9) db0d))
         5 (contract_storage_root_after env0 cu0 (Tree.load 9) db0d),
       [Event.deployed 4] ++ wroteEvents cu0) :=
  ⟨by decide,
    (update_contract_state_spec env0 cu0 (Tree.load 9) db0d [Event.deployed 4]).2 5 (by decide)⟩

/-- A successful deployment loop appends exactly one `deployed` event per
contract, in payload order. -/
lemma runDeploys_trace (env : Env) :
    ∀ (cs : List DeployedContract) (db : Database) (tr : List Event)
      (db1 : Database) (tr1 : List Event),
      runDeploys env cs db tr = (.ok (), db1, tr1) →
      tr1 = tr ++ cs.map (fun c => Event.deployed c.address) := by
  intro cs
  induction cs with
  | nil =>
    intro db tr db1 tr1 h
    simp only [runDeploys] at h
    injection h with h1 h2
    injection h2 with hdb htr
    rw [← htr]
    simp
  | cons c rest ih =>
    intro db tr db1 tr1 h
    unfold runDeploys at h
    rcases hc : deploy_contract env c db with e | dbx <;> rw [hc] at h <;> simp only [] at h
    · injection h with h1 h2
      exact Except.noConfusion h1
    · rw [ih _ _ _ _ h]
      simp

/-- Whatever its outcome, `update_contract_state` appends exactly the
write events of its payload, in payload order. -/
lemma update_contract_state_trace (env : Env) (u : ContractUpdate) (gt : Tree)
    (db : Database) (tr : List Event) (res : Except String Felt) (db1 : Database)
    (tr1 : List Event) (h : update_contract_state env u gt db tr = (res, db1, tr1)) :
    tr1 = tr ++ wroteEvents u := by
  rw [update_contract_state_eq] at h
  rcases hg : ContractsTable.get_hash db u.address with _ | ch <;> rw [hg] at h <;>
    simp only [] at h <;> injection h with h1 h2 <;> injection h2 with hdb htr <;>
    exact htr.symm

/-- A successful contract-update loop appends the write events of every
contract update, grouped per contract in payload order. -/
lemma runContractUpdates_trace (env : Env) :
    ∀ (us : List ContractUpdate) (gt : Tree) (db : Database) (tr : List Event)
      (gt2 : Tree) (db2 : Database) (tr2 : List Event),
      runContractUpdates env us gt db tr = (.ok gt2, db2, tr2) →
      tr2 = tr ++ (us.map wroteEvents).flatten := by
  intro us
  induction us with
  | nil =>
    intro gt db tr gt2 db2 tr2 h
    simp only [runContractUpdates] at h
    injection h with h1 h2
    injection h2 with hdb htr
    rw [← htr]
    simp
  | cons u rest ih =>
    intro gt db tr gt2 db2 tr2 h
    unfold runContractUpdates at h
    rcases hu : update_contract_state env u gt db tr with ⟨resU, dbU, trU⟩
    rw [hu] at h
    rcases resU with e | csh <;> simp only [] at h
    · injection h with h1 h2
      exact Except.noConfusion h1
    · rw [ih _ _ _ _ _ _ h, update_contract_state_trace env u gt db tr _ _ _ hu]
      simp

/-- C9: on a successful `update`, the event log is exactly the deployment
events of every deployed contract followed by the storage writes of every
contract update - so all contract insertions precede all storage writes,
and each contract's writes appear in payload order. -/
theorem update_event_order (env : Env) (st : DriverState) (db : Database)
    (log : StateUpdateLog) (su : StateUpdate) (st' : DriverState) (db' : Database)
    (tr : List Event) :
    env.retrieve log = .ok su →
    update env st db log = (.ok (), st', db', tr) →
    tr = su.deployed_contracts.map (fun c => Event.deployed c.address)
      ++ (su.contract_updates.map wroteEvents).flatten := by
  intro hR h
  obtain ⟨su2, db1, tr1, gt2, db2, block, bhb, bh, hR2, hD, hC, -, -, -, -, -, -, -⟩ :=
    update_ok_inv env st db log st' db' tr h
  rw [hR] at hR2
  injection hR2 with hsu
  subst hsu
  rw [runContractUpdates_trace env _ _ _ _ _ _ _ hC, runDeploys_trace env _ _ _ _ _ hD]
  simp

/-- C9 witness: the concrete run emits the deployment of contract 4
before its storage write. -/
theorem update_event_order_witness :
    env0.retrieve log0 = .ok su0 ∧
    update env0 st0 db0 log0 = (.ok (), ⟨648, none⟩, db0F, tr0F) ∧
    tr0F = su0.deployed_contracts.map (fun c => Event.deployed c.address)
      ++ (su0.contract_updates.map wroteEvents).flatten :=
  ⟨by decide, by decide,
    update_event_order env0 st0 db0 log0 su0 ⟨648, none⟩ db0F tr0F (by decide) (by decide)⟩

/-- C6 (amended): the history row inserted by a successful `update`
carries the block number, the block hash parsed from the sequencer's
reply for `log.block_number`, the log's global root, and - of the L1
provenance - only the transaction hash and the log index; the L1 block
hash, L1 block number and transaction index are not passed to the
insert. -/
theorem global_state_record_contents (env : Env) (st : DriverState) (db : Database)
    (log : StateUpdateLog) (st' : DriverState) (db' : Database) (tr : List Event) :
    update env st db log = (.ok (), st', db', tr) →
    ∃ block bh_bytes block_hash db2,
      env.blockByNumber log.block_number = .ok block ∧
      block.block_hash = some bh_bytes ∧
      from_be_bytes bh_bytes = some block_hash ∧
      db' = GlobalStateTable.insert db2 log.block_number block_hash log.global_root
              log.origin.transaction.hash log.origin.log_index ∧
      db'.global_state = db2.global_state ++
        [{ block_number := log.block_number, block_hash := block_hash,
           global_root := log.global_root, eth_block_hash := 0, eth_block_number := 0,
           eth_tx_hash := log.origin.transaction.hash, eth_tx_index := 0,
           eth_log_index := log.origin.log_index }] := by
  intro h
  obtain ⟨su, db1, tr1, gt2, db2, block, bhb, bh, -, -, -, -, hB, -, hbh, hph, -, hdb⟩ :=
    update_ok_inv env st db log st' db' tr h
  exact ⟨block, bhb, bh, db2, hB, hbh, hph, hdb, by rw [hdb]; rfl⟩

/-- C6 witness: the concrete successful run inserts exactly such a row,
with block hash 3 parsed from the sequencer's reply. -/
theorem global_state_record_contents_witness :
    update env0 st0 db0 log0 = (.ok (), ⟨648, none⟩, db0F, tr0F) ∧
    (∃ block bh_bytes block_hash db2,
      env0.blockByNumber log0.block_number = .ok block ∧
      block.block_hash = some bh_bytes ∧
      from_be_bytes bh_bytes = some block_hash ∧
      db0F = GlobalStateTable.insert db2 log0.block_number block_hash log0.global_root
              log0.origin.transaction.hash log0.origin.log_index ∧
      db0F.global_state = db2.global_state ++
        [{ block_number := log0.block_number, block_hash := block_hash,
           global_root := log0.global_root, eth_block_hash := 0, eth_block_number := 0,
           eth_tx_hash := log0.origin.transaction.hash, eth_tx_index := 0,
           eth_log_index := log0.origin.log_index }]) :=
  ⟨by decide,
    global_state_record_contents env0 st0 db0 log0 ⟨648, none⟩ db0F tr0F (by decide)⟩

/-- C6 counterexample: the concrete run succeeds, the log's L1 provenance
is (block hash 5, block number 6, transaction index 7), yet the stored
row holds zeros in those columns - the full L1 provenance is not
recorded. -/
theorem global_state_drops_l1_provenance :
    (update env0 st0 db0 log0).1 = .ok () ∧
    log0.origin.block.hash = 5 ∧
    log0.origin.block.number = 6 ∧
    log0.origin.transaction.index = 7 ∧
    (update env0 st0 db0 log0).2.2.1.global_state =
      [⟨1, 3, 648, 0, 0, 11, 0, 13⟩] := by
  decide

/-- C10: whenever `update` returns an error of any kind, the driver's
`global_root` field is unchanged; it is assigned only as the final step. -/
theorem update_error_preserves_global_root (env : Env) (st : DriverState)
    (db : Database) (log : StateUpdateLog) :
    ∀ e st' db' tr, update env st db log = (.error e, st', db', tr) →
      st'.global_root = st.global_root := by
  intro e st' db' tr h
  rcases update_st_inv env st db log with hst | ⟨hok, -⟩
  · rw [h] at hst
    have hst2 : st' = st := by simpa using hst
    rw [hst2]
  · rw [h] at hok
    simp at hok

/-- C10 witness: a reorg-failing run leaves the driver state untouched. -/
theorem update_error_preserves_global_root_witness :
    update envR st0 db0 log0 = (.error .Reorg, st0, db0, []) ∧
    st0.global_root = st0.global_root :=
  ⟨by decide,
    update_error_preserves_global_root envR st0 db0 log0 .Reorg st0 db0 [] (by decide)⟩

/-- The per-batch loop never stops with the `ok` outcome: it either
finishes the batch or stops on an error or reorg. -/
lemma processBatch_ne_ok (env : Env) :
    ∀ (ls : List StateUpdateLog) (st : DriverState) (db : Database)
      (o : SyncOutcome) (st1 : DriverState) (db1 : Database),
      processBatch env st db ls = .inr (o, st1, db1) → o ≠ SyncOutcome.ok := by
  intro ls
  induction ls with
  | nil =>
    intro st db o st1 db1 h
    exact Sum.noConfusion h
  | cons l rest ih =>
    intro st db o st1 db1 h
    unfold processBatch at h
    rcases hu : update env st db l with ⟨resU, stU, dbU, trU⟩
    rw [hu] at h
    rcases resU with e | u
    · rcases e with _ | msg <;> simp only [] at h <;> injection h with h2 <;>
        injection h2 with ho hrest <;> rw [← ho] <;> simp
    · cases u
      simp only [] at h
      exact ih _ _ _ _ _ h

/-- If the fetch script never reports an empty batch, `syncRun` never
returns the `ok` outcome. -/
lemma syncRun_ne_ok (env : Env) :
    ∀ (script : List FetchResult) (st : DriverState) (db : Database),
      (∀ fr ∈ script, fr ≠ FetchResult.logs []) →
      (syncRun env st db script).1 ≠ SyncOutcome.ok := by
  intro script
  induction script with
  | nil =>
    intro st db h
    simp [syncRun]
  | cons fr rest ih =>
    intro st db h
    rcases fr with ls | _ | e
    · rcases ls with _ | ⟨l, ls2⟩
      · exact absurd rfl (h (FetchResult.logs []) (by simp))
      · simp only [syncRun]
        rw [if_neg (by simp)]
        rcases hp : processBatch env st db (l :: ls2) with ⟨st1, db1⟩ | ⟨o, st1, db1⟩
        · exact ih st1 db1 (fun fr2 hf => h fr2 (List.mem_cons_of_mem _ hf))
        · exact processBatch_ne_ok env _ _ _ _ _ _ hp
    · simp [syncRun]
    · simp [syncRun]

/-- C4: `sync` returns `Ok` exactly on an empty fetched batch; each log of
a batch runs in a fresh transaction view on the committed database, which
is committed only on success; a non-reorg `update` error stops the loop,
surfaces the error, and leaves the committed database at the state after
the last successful log - the in-flight transaction is discarded. -/
theorem sync_commit_protocol (env : Env) (st : DriverState) (db : Database) :
    (∀ rest, syncRun env st db (FetchResult.logs [] :: rest) = (.ok, st, db)) ∧
    (∀ script, (∀ fr ∈ script, fr ≠ FetchResult.logs []) →
      (syncRun env st db script).1 ≠ SyncOutcome.ok) ∧
    (∀ l rest st1 db1 tr, update env st db l = (.ok (), st1, db1, tr) →
      processBatch env st db (l :: rest) = processBatch env st1 db1 rest) ∧
    (∀ l rest e st1 db1 tr, update env st db l = (.error (.Other e), st1, db1, tr) →
      processBatch env st db (l :: rest) = .inr (.updateFatal e, st1, db)) := by
  refine ⟨?_, ?_, ?_, ?_⟩
  · intro rest
    simp [syncRun]
  · intro script h
    exact syncRun_ne_ok env script st db h
  · intro l rest st1 db1 tr h
    simp only [processBatch, h]
  · intro l rest e st1 db1 tr h
    unfold processBatch
    rw [h]

/-- C4 witness: the concrete batch of one log commits its transaction and
continues; an empty batch returns `ok`. -/
theorem sync_commit_protocol_witness :
    update env0 st0 db0 log0 = (.ok (), ⟨648, none⟩, db0F, tr0F) ∧
    processBatch env0 st0 db0 (log0 :: []) = processBatch env0 ⟨648, none⟩ db0F [] :=
  ⟨by decide,
    (sync_commit_protocol env0 st0 db0).2.2.1 log0 [] ⟨648, none⟩ db0F tr0F (by decide)⟩

/-- C5: a reorg signal does not run any recovery protocol in this code:
a fetcher reorg makes `sync` hit the `todo` panic, and an `update` reorg
makes the per-batch loop hit the other `todo` panic, discarding the
in-flight transaction; neither path recovers locally. -/
theorem sync_reorg_hits_todo (env : Env) (st : DriverState) (db : Database) :
    (∀ rest, syncRun env st db (FetchResult.reorg :: rest) = (.todoFetchReorg, st, db)) ∧
    (∀ l rest st1 db1 tr, update env st db l = (.error .Reorg, st1, db1, tr) →
      processBatch env st db (l :: rest) = .inr (.todoUpdateReorg, st1, db)) := by
  constructor
  · intro rest
    rfl
  · intro l rest st1 db1 tr h
    unfold processBatch
    rw [h]

/-- C5 witness: with retrieval reporting a reorg, the concrete run reaches
the `todo` panic. -/
theorem sync_reorg_hits_todo_witness :
    update envR st0 db0 log0 = (.error .Reorg, st0, db0, []) ∧
    processBatch envR st0 db0 (log0 :: []) = .inr (.todoUpdateReorg, st0, db0) :=
  ⟨by decide,
    (sync_reorg_hits_todo envR st0 db0).2 log0 [] st0 db0 [] (by decide)⟩

/-- C8: `new` fails exactly when the database cannot be opened; otherwise
it mirrors the latest record's global root (zero when none) and primes the
fetcher cursor with the log reconstructed from that record (genesis when
none). -/
theorem new_initialization (env : Env) :
    (∀ e, env.openDb = .error e → new env = .error ("Failed to open database. " ++ e)) ∧
    (∀ db, env.openDb = .ok db →
      new env = .ok
        { global_root :=
            ((GlobalStateTable.get_latest_state db).map (fun r => r.global_root)).getD 0
          root_fetcher := (GlobalStateTable.get_latest_state db).map recordToLog }) := by
  constructor
  · intro e h
    unfold new
    rw [h]
  · intro db h
    unfold new
    rw [h]

/-- C8 witness: a database holding one record primes the driver from that
record. -/
theorem new_initialization_witness :
    envRec.openDb = .ok dbRec ∧
    new envRec = .ok
      { global_root :=
          ((GlobalStateTable.get_latest_state dbRec).map (fun r => r.global_root)).getD 0
        root_fetcher := (GlobalStateTable.get_latest_state dbRec).map recordToLog } :=
  ⟨by decide, (new_initialization envRec).2 dbRec (by decide)⟩

end Pathfinder
